import Mathlib

/-!
# Verification of the runtime lifecycle and callback-scope subsystem

Shallow embedding of the core of `src/node.cc` and `src/node_internals.h`:
the async-id stack and callback scopes, the `MakeCallback` family, the
bootstrap sequence (`ExecuteBootstrapper` / `LoadEnvironment`), the thread
pool work dispatch (`ThreadPoolWork`), and the top-level run loop
(the two inner/outer `Start` functions, `RunBeforeExit`, `EmitBeforeExit`,
`EmitExit`).

External collaborators (the script engine, the event-loop library, the
managed event handlers) are parameters of the model: their outcomes are
universally quantified, or, where a claim needs their contract, modelled
from the specification with an explicit `Modelled from the spec:` marker.
-/

set_option autoImplicit false

namespace Node

/-- Managed (engine) values. `JSVal.undefined` is the engine's Undefined
value; `JSVal.obj n` stands for any other managed value. A `Local<Value>`
or `MaybeLocal<Value>` handle is represented as `Option JSVal`, with `none`
for the empty handle. -/
inductive JSVal where
  | undefined : JSVal
  | obj : Nat → JSVal
deriving DecidableEq, BEq

/-- The process-facing managed object, as observed by `EmitExit` /
`EmitBeforeExit` (src/node.cc:1739-1780): its `_exiting` flag and its
exit-code property. -/
structure Process where
  exiting : Bool
  exit_code : Int
deriving DecidableEq

/-- The slice of `Environment` state the claims are about: the async-id
stack (pairs of async id and trigger async id), the `MakeCallback` depth
counter (`makecallback_cntr_`, read through `makecallback_depth()`),
the `can_call_into_js` flag, and whether `RunCleanup()` has run. -/
structure Environment where
  async_id_stack : List (Nat × Nat)
  makecallback_cntr : Nat
  can_call_into_js : Bool
  cleanup_ran : Bool
deriving DecidableEq

/-- Environment state at the start of the inner `Start`
(src/node.cc:1898-1899): empty async-id stack, zero callback depth,
managed calls allowed, cleanup not yet run. -/
def initialEnvironment : Environment :=
  { async_id_stack := [], makecallback_cntr := 0,
    can_call_into_js := true, cleanup_ran := false }

/-- Modelled from the spec: `AsyncHooks::push_async_ids` (declared in the
environment headers, which are not under src/). Pushes the (async id,
trigger id) pair onto the environment's async-id stack (spec section 4.2:
"On construction: pushes the async-id pair onto the environment's
async-id stack"). -/
def push_async_ids (async_id trigger_async_id : Nat) (env : Environment) : Environment :=
  { env with async_id_stack := (async_id, trigger_async_id) :: env.async_id_stack }

/-- Modelled from the spec: `AsyncHooks::pop_async_id` (implementation not
under src/). Popping an async id that does not match the top of the stack
is fatal (spec section 8: "manually popping an async id that does not
match the top of the stack triggers the fatal/programming-error path"),
returned here as `none`. Popping an empty stack is a silent no-op: the
comment in `ExecuteBootstrapper` (src/node.cc:1159-1165) says the stack is
cleared on bootstrap failure precisely so that the later scope-exit pop
"doesn't fail on the id check". -/
def pop_async_id (async_id : Nat) (env : Environment) : Option Environment :=
  match env.async_id_stack with
  | [] => some env
  | (aid, _) :: rest =>
      if aid = async_id then some { env with async_id_stack := rest } else none

/-- Modelled from the spec: `AsyncHooks::clear_async_id_stack`
(implementation not under src/; named and motivated by the comment in
`ExecuteBootstrapper`, src/node.cc:1159-1165): resets the async-id stack
to empty. -/
def clear_async_id_stack (env : Environment) : Environment :=
  { env with async_id_stack := [] }

/-- State of one `InternalCallbackScope`, with exactly the fields declared
in src/node_internals.h:311-318 that the claims observe: the async
context, and the `failed_` / `pushed_ids_` / `closed_` flags. -/
structure CallbackScopeState where
  async_context_ : Nat × Nat
  failed_ : Bool
  pushed_ids_ : Bool
  closed_ : Bool
deriving DecidableEq

/-- `InternalCallbackScope::MarkAsFailed` (src/node_internals.h:309):
sets `failed_`. -/
def markAsFailed (s : CallbackScopeState) : CallbackScopeState :=
  { s with failed_ := true }

/-- Modelled from the spec: the `InternalCallbackScope` constructor (its
implementation is not under src/; only the class declaration in
src/node_internals.h:295-319 is). Per spec section 4.2: if the expectation
is "resource required" and none is given, construction fails fatally
(`none`); otherwise the scope starts OPEN and pushes its async-id pair.
The member `Environment::AsyncCallbackScope callback_scope_` increments
the environment's `MakeCallback` depth for the scope's lifetime. Per the
RunLoop contract (spec section 4.4 step 3: after the exit notification,
"forbid further invocation of managed callbacks"), a re-entry attempted
while `can_call_into_js` is unset starts in the failed state and pushes
nothing. -/
def scopeConstruct (env : Environment) (ctx : Nat × Nat)
    (resource_given expect_require : Bool) :
    Option (CallbackScopeState × Environment) :=
  if expect_require && !resource_given then
    none
  else
    let env1 := { env with makecallback_cntr := env.makecallback_cntr + 1 }
    if env1.can_call_into_js then
      some (⟨ctx, false, true, false⟩, push_async_ids ctx.1 ctx.2 env1)
    else
      some (⟨ctx, true, false, false⟩, env1)

/-- Modelled from the spec: `InternalCallbackScope::Close` (implementation
not under src/). Per spec section 4.2: closing is idempotent (a scope
"becomes closed exactly once"); on close the async-id pair is popped when
it was pushed (a mismatch is fatal); if the scope already failed the
microtask flush is skipped ("already-corrupt state should not be given
more chances to run managed code"); otherwise the flush runs and may
itself surface an exception, transitioning to the failed state. The flush
outcome (`flush_fails`) is an external-collaborator parameter; the flush
itself re-enters managed code only through balanced callback scopes and so
leaves the async-id stack unchanged. -/
def scopeClose (s : CallbackScopeState) (flush_fails : Bool) (env : Environment) :
    Option (CallbackScopeState × Environment) :=
  if s.closed_ then
    some (s, env)
  else
    let s1 := { s with closed_ := true }
    match (if s1.pushed_ids_ then pop_async_id s1.async_context_.1 env else some env) with
    | none => none
    | some env1 =>
        if s1.failed_ then some (s1, env1)
        else if flush_fails then some ({ s1 with failed_ := true }, env1)
        else some (s1, env1)

/-- Modelled from the spec: the `InternalCallbackScope` destructor
(implementation not under src/). Per spec section 4.2: "if still OPEN,
performs the same pop+close logic as `Close()`"; destruction also releases
the member `AsyncCallbackScope`, decrementing the `MakeCallback` depth. -/
def scopeDestroy (s : CallbackScopeState) (flush_fails : Bool) (env : Environment) :
    Option Environment :=
  match scopeClose s flush_fails env with
  | none => none
  | some (_, env1) =>
      some { env1 with makecallback_cntr := env1.makecallback_cntr - 1 }

/-- `InternalMakeCallback` (src/node.cc:540-574). The receiver is checked
non-empty (`CHECK(.recv.IsEmpty())` negated, line 546) and a scope is
constructed over the given async context. If the scope starts failed, an
empty result is returned. The call goes through the domain callback when
the async id is zero and a domain callback is installed (line 554);
either way the callee is an external collaborator, so its result is a
parameter (`call_result` for the direct path, `domain_result` for the
domain path). An empty result marks the scope as failed and returns
empty; otherwise the scope is closed and, if closing failed, empty is
returned. The scope's destructor runs on every path. The outer `Option`
is the fatal/abort path of the scope machinery (never taken in balanced
executions). -/
def InternalMakeCallback (env : Environment) (ctx : Nat × Nat)
    (domain_cb_empty : Bool) (call_result domain_result : Option JSVal)
    (flush_fails : Bool) : Option (Option JSVal × Environment) :=
  match scopeConstruct env ctx true true with
  | none => none
  | some (scope, env1) =>
      if scope.failed_ then
        match scopeDestroy scope flush_fails env1 with
        | none => none
        | some env2 => some (none, env2)
      else
        let ret := if ctx.1 ≠ 0 || domain_cb_empty then call_result else domain_result
        match ret with
        | none =>
            match scopeDestroy (markAsFailed scope) flush_fails env1 with
            | none => none
            | some env2 => some (none, env2)
        | some v =>
            match scopeClose scope flush_fails env1 with
            | none => none
            | some (scope1, env2) =>
                match scopeDestroy scope1 flush_fails env2 with
                | none => none
                | some env3 =>
                    if scope1.failed_ then some (none, env3)
                    else some (some v, env3)

/-- Public `MakeCallback` on a `Function` (src/node.cc:608-632): delegates
to `InternalMakeCallback` and, when the result is empty while the
environment's `makecallback_depth()` is zero, returns Undefined instead
("only for legacy compatibility", lines 626-630). -/
def MakeCallback_function (env : Environment) (ctx : Nat × Nat)
    (domain_cb_empty : Bool) (call_result domain_result : Option JSVal)
    (flush_fails : Bool) : Option (Option JSVal × Environment) :=
  match InternalMakeCallback env ctx domain_cb_empty call_result domain_result flush_fails with
  | none => none
  | some (ret, env1) =>
      if ret = none ∧ env1.makecallback_cntr = 0 then
        some (some JSVal.undefined, env1)
      else
        some (ret, env1)

/-- Public `MakeCallback` on a property name (src/node.cc:593-605): looks
the symbol up on the receiver (an external engine operation; `callback_v`
is its result) and returns an empty handle when the property is missing
or not a function; otherwise delegates to the `Function` overload. -/
def MakeCallback_symbol (callback_v : Option JSVal) (is_function : Bool)
    (env : Environment) (ctx : Nat × Nat) (domain_cb_empty : Bool)
    (call_result domain_result : Option JSVal) (flush_fails : Bool) :
    Option (Option JSVal × Environment) :=
  match callback_v with
  | none => some (none, env)
  | some _ =>
      if is_function then
        MakeCallback_function env ctx domain_cb_empty call_result domain_result flush_fails
      else
        some (none, env)

/-- Public `MakeCallback` on a C-string method name (src/node.cc:580-590):
creates the method string (always succeeds, `ToLocalChecked`) and
delegates to the symbol overload. -/
def MakeCallback_method (callback_v : Option JSVal) (is_function : Bool)
    (env : Environment) (ctx : Nat × Nat) (domain_cb_empty : Bool)
    (call_result domain_result : Option JSVal) (flush_fails : Bool) :
    Option (Option JSVal × Environment) :=
  MakeCallback_symbol callback_v is_function env ctx domain_cb_empty
    call_result domain_result flush_fails

/-- Legacy `MakeCallback` on a `Function` (src/node.cc:661-670): calls the
modern overload with async context `{0, 0}` and converts the `MaybeLocal`
with `FromMaybe(Local<Value>())`, which maps the empty maybe to the empty
handle — the identity under the `Option JSVal` encoding. -/
def MakeCallback_legacy_function (env : Environment) (domain_cb_empty : Bool)
    (call_result domain_result : Option JSVal) (flush_fails : Bool) :
    Option (Option JSVal × Environment) :=
  MakeCallback_function env (0, 0) domain_cb_empty call_result domain_result flush_fails

/-- Legacy `MakeCallback` on a symbol (src/node.cc:649-658): async context
`{0, 0}`, then `FromMaybe(Local<Value>())`. -/
def MakeCallback_legacy_symbol (callback_v : Option JSVal) (is_function : Bool)
    (env : Environment) (domain_cb_empty : Bool)
    (call_result domain_result : Option JSVal) (flush_fails : Bool) :
    Option (Option JSVal × Environment) :=
  MakeCallback_symbol callback_v is_function env (0, 0) domain_cb_empty
    call_result domain_result flush_fails

/-- Legacy `MakeCallback` on a method name (src/node.cc:637-646): async
context `{0, 0}`, then `FromMaybe(Local<Value>())`. -/
def MakeCallback_legacy_method (callback_v : Option JSVal) (is_function : Bool)
    (env : Environment) (domain_cb_empty : Bool)
    (call_result domain_result : Option JSVal) (flush_fails : Bool) :
    Option (Option JSVal × Environment) :=
  MakeCallback_method callback_v is_function env (0, 0) domain_cb_empty
    call_result domain_result flush_fails

/-- `ExecuteBootstrapper` (src/node.cc:1151-1171): runs the bootstrap
script through the external module loader (`compile_result` is that
collaborator's outcome) and, when the result is empty, clears the
async-id stack before returning (lines 1166-1168). -/
def ExecuteBootstrapper (compile_result : Option JSVal) (env : Environment) :
    Option JSVal × Environment :=
  match compile_result with
  | none => (none, clear_async_id_stack env)
  | some v => (some v, env)

/-- `LoadEnvironment` (src/node.cc:1173-1250): bootstraps the internal
loaders, returning early on an empty result (lines 1221-1223), then
bootstraps the node module, again returning early on an empty result
(lines 1245-1249). The managed-side setup glue (global properties,
function templates) does not touch the modelled state. The `Bool` result
records whether both bootstrappers succeeded. -/
def LoadEnvironment (loaders_result node_result : Option JSVal)
    (env : Environment) : Environment × Bool :=
  match ExecuteBootstrapper loaders_result env with
  | (none, env1) => (env1, false)
  | (some _, env1) =>
      match ExecuteBootstrapper node_result env1 with
      | (none, env2) => (env2, false)
      | (some _, env2) => (env2, true)

/-- Bootstrap phase of the inner `Start` (src/node.cc:1909-1914): an
`Environment::AsyncCallbackScope` is opened (the depth counter is
incremented), the initial async-id pair `(1, 0)` is pushed,
`LoadEnvironment` runs, the async id `1` is popped, and the scope closes
(the depth counter is decremented). The third component of the result is
a ghost observation: the async-id stack exactly as `LoadEnvironment`
received it. `none` is the fatal path of the id-check on pop. -/
def bootstrapPhase (loaders_result node_result : Option JSVal)
    (env : Environment) : Option (Environment × Bool × List (Nat × Nat)) :=
  let env1 := { env with makecallback_cntr := env.makecallback_cntr + 1 }
  let env2 := push_async_ids 1 0 env1
  match LoadEnvironment loaders_result node_result env2 with
  | (env3, ok) =>
      match pop_async_id 1 env3 with
      | none => none
      | some env4 =>
          some ({ env4 with makecallback_cntr := env4.makecallback_cntr - 1 },
                ok, env2.async_id_stack)

/-- Oracle for the external collaborators of one inner `Start` run: the
inspector outcome, the engine's two bootstrap results, the event-loop
library's behaviour (`residual i` = referenced work still alive when
`uv_run` returns in iteration `i` — zero when the loop ran to its natural
stopping point), the work scheduled by native before-exit callbacks at
pass `p` (`beforeExitWork p`), the work scheduled by managed `beforeExit`
handlers when the notification is emitted (`beforeExitEmitWork p`), the
managed `exit`-event handler, and a fuel bound on loop iterations
examined. -/
structure World where
  inspector_enabled : Bool
  inspector_started : Bool
  loaders_result : Option JSVal
  node_result : Option JSVal
  residual : Nat → Nat
  beforeExitWork : Nat → Nat
  beforeExitEmitWork : Nat → Nat
  exit_handler : Int → Process → Process
  fuel : Nat

/-- Observable events of one run-loop execution: `stillAlive` — `uv_run`
returned with referenced work remaining (the `continue` branch,
src/node.cc:1927-1928); `idle` — the loop went idle and a before-exit
pass runs (src/node.cc:1930); `beforeExit` — `EmitBeforeExit` fired
(src/node.cc:1734-1735); `exitEmit` — `EmitExit` fired after the loop
(src/node.cc:1942). -/
inductive LoopEvent where
  | stillAlive : LoopEvent
  | idle : LoopEvent
  | beforeExit : LoopEvent
  | exitEmit : LoopEvent
deriving DecidableEq, BEq

/-- `RunBeforeExit` (src/node.cc:1731-1736): runs the native before-exit
callbacks (which may schedule `beforeExitWork pass` units of referenced
work) and, only if the loop is still not alive afterwards, emits the
managed `beforeExit` notification (whose handlers may in turn schedule
`beforeExitEmitWork pass` units). Returns the referenced work remaining
and whether the notification was emitted. -/
def RunBeforeExit (w : World) (pass : Nat) : Nat × Bool :=
  let work := w.beforeExitWork pass
  if work = 0 then (work + w.beforeExitEmitWork pass, true) else (work, false)

/-- The main do-while loop of the inner `Start` (src/node.cc:1921-1935):
run `uv_run` to its natural stopping point and drain platform tasks
(leaving `residual iter` referenced work); if the loop is still alive,
`continue`; otherwise run a before-exit pass and re-check liveness,
leaving the loop only when no referenced work remains after the pass.
Returns the event trace, or `none` when the fuel bound is exhausted
before the loop exits. -/
def loopRun (w : World) : Nat → Nat → Nat → Option (List LoopEvent)
  | 0, _, _ => none
  | Nat.succ fuel, iter, pass =>
      if 0 < w.residual iter then
        (loopRun w fuel (iter + 1) pass).map (fun tr => LoopEvent.stillAlive :: tr)
      else
        if 0 < (RunBeforeExit w pass).1 then
          (loopRun w fuel (iter + 1) (pass + 1)).map
            (fun tr =>
              (if (RunBeforeExit w pass).2 then
                  [LoopEvent.idle, LoopEvent.beforeExit]
               else [LoopEvent.idle]) ++ tr)
        else
          some
            (if (RunBeforeExit w pass).2 then
                [LoopEvent.idle, LoopEvent.beforeExit]
             else [LoopEvent.idle])

/-- `EmitExit` (src/node.cc:1755-1780): sets the process object's
`_exiting` property to true, reads the exit-code property, emits the
managed `exit` event with that code (`emit` is the external handler), and
returns the exit-code property re-read after the handlers ran ("Reload
exit code, it may be changed by emit", lines 1777-1779). -/
def EmitExit (emit : Int → Process → Process) (proc : Process) : Int × Process :=
  let proc1 := { proc with exiting := true }
  let code := proc1.exit_code
  let proc2 := emit code proc1
  (proc2.exit_code, proc2)

/-- Outcome of the inner `Start`. `inspectorFail` is the sentinel-12
return at src/node.cc:1904-1907; `fatalAbort` is the (never-taken)
fatal id-check path; `bootstrapFatal` is the terminated-by-the-fatal-
exception-handler outcome of a failed bootstrap; `loopDiverged` means
the fuel bound was reached; `done` carries the exit code, the final
environment and process states, and the event trace. -/
inductive StartResult where
  | inspectorFail : StartResult
  | fatalAbort : StartResult
  | bootstrapFatal : StartResult
  | loopDiverged : StartResult
  | done : Int → Environment → Process → List LoopEvent → StartResult
deriving DecidableEq

/-- Inner `Start` (src/node.cc:1892-1959): construct a fresh environment;
return the internal-error sentinel if the inspector was requested but
failed to start (lines 1904-1907); run the bootstrap phase; run the main
loop; then `EmitExit`, forbid further managed calls
(`set_can_call_into_js(false)`, line 1946), run cleanup (line 1949) and
return the exit code. Modelled from the spec: a failed bootstrap is
propagated to the single top-level fatal-exception handler, which
terminates before the loop runs (`FatalException` is not under src/;
spec section 4.4 step 1 and section 7 case b). -/
def StartInner (w : World) (proc : Process) : StartResult :=
  let env := initialEnvironment
  if w.inspector_enabled && !w.inspector_started then
    StartResult.inspectorFail
  else
    match bootstrapPhase w.loaders_result w.node_result env with
    | none => StartResult.fatalAbort
    | some (env1, ok, _) =>
        if !ok then
          StartResult.bootstrapFatal
        else
          match loopRun w w.fuel 0 0 with
          | none => StartResult.loopDiverged
          | some tr =>
              let p := EmitExit w.exit_handler proc
              let env2 := { env1 with can_call_into_js := false }
              let env3 := { env2 with cleanup_ran := true }
              StartResult.done p.1 env3 p.2 (tr ++ [LoopEvent.exitEmit])

/-- Outcome of the outer `Start`: an exit code together with whether any
cleanup hook ran and whether the run loop was entered, or termination via
the fatal-exception handler, or fuel exhaustion. -/
inductive OuterResult where
  | code : Int → Bool → Bool → OuterResult
  | fatalTerminated : OuterResult
  | diverged : OuterResult
deriving DecidableEq

/-- Outer `Start` (src/node.cc:1996-2042): if engine-instance (isolate)
allocation fails, return the sentinel exit code 12 immediately
(lines 2001-2003) — before any cleanup hook exists and before the run
loop; otherwise run the inner `Start` and propagate its exit code. The
inner inspector-failure return of 12 (src/node.cc:1904-1907) likewise
happens before the loop and before `RunCleanup`. -/
def StartOuter (isolate_alloc_ok : Bool) (w : World) (proc : Process) :
    OuterResult :=
  if !isolate_alloc_ok then
    OuterResult.code 12 false false
  else
    match StartInner w proc with
    | StartResult.inspectorFail => OuterResult.code 12 false false
    | StartResult.fatalAbort => OuterResult.fatalTerminated
    | StartResult.bootstrapFatal => OuterResult.fatalTerminated
    | StartResult.loopDiverged => OuterResult.diverged
    | StartResult.done c env _ _ => OuterResult.code c env.cleanup_ran true

/-- Observable events of one `ThreadPoolWork` unit: the outstanding-work
counter increment and decrement, the worker-thread body running to
completion, and the completion callback with its status. -/
inductive WorkEvent where
  | counterInc : WorkEvent
  | doWork : WorkEvent
  | counterDec : WorkEvent
  | afterWork : Int → WorkEvent
deriving DecidableEq, BEq

/-- External outcome of one scheduled work unit: it either ran on the
worker thread, or was cancelled before starting. -/
inductive WorkOutcome where
  | success : WorkOutcome
  | cancelled : WorkOutcome
deriving DecidableEq

/-- Modelled from the spec: the negative cancellation status delivered to
the completion callback ("a negative cancellation/error code",
spec section 4.3); numerically the event-loop library's ECANCELED. -/
def uvEcanceled : Int := -125

/-- `ThreadPoolWork::ScheduleWork` (src/node_internals.h:339-354): first
increments the environment's outstanding-work counter, then submits the
work record. Modelled from the spec: the event-loop library's queue
contract (spec sections 4.3 and 5) — when the unit runs, the worker
thread invokes `DoThreadPoolWork` and, after it returns, the loop thread
decrements the counter and invokes `AfterThreadPoolWork(0)` (the order of
the decrement and the callback is src, lines 348-352); when the unit was
cancelled before starting (`CancelWork`, src/node_internals.h:356-358),
the body never runs and the loop thread decrements the counter and
invokes `AfterThreadPoolWork` with the negative cancellation status. -/
def ScheduleWork (outcome : WorkOutcome) : List WorkEvent :=
  WorkEvent.counterInc ::
    (match outcome with
     | WorkOutcome.success =>
         [WorkEvent.doWork, WorkEvent.counterDec, WorkEvent.afterWork 0]
     | WorkOutcome.cancelled =>
         [WorkEvent.counterDec, WorkEvent.afterWork uvEcanceled])

/-- A well-nested program of `InternalCallbackScope` uses on one
environment, encoded as a forest: `scope ctx mf ec ff children rest`
constructs a scope with async context `ctx`, runs the nested `children`
inside it (skipped when construction left the scope failed, as in
`InternalMakeCallback`), calls `MarkAsFailed` when `mf`, calls `Close()`
explicitly when `ec`, destroys the scope (with flush outcome `ff`), and
continues with the sibling scopes `rest`. -/
inductive ScopeForest where
  | nil : ScopeForest
  | scope : (Nat × Nat) → Bool → Bool → Bool → ScopeForest → ScopeForest → ScopeForest

/-- Number of scopes in a `ScopeForest`. -/
def scopeCount : ScopeForest → Nat
  | ScopeForest.nil => 0
  | ScopeForest.scope _ _ _ _ children rest => 1 + scopeCount children + scopeCount rest

/-- Runs a `ScopeForest` on an environment, counting the async-id pops
actually performed. `none` is the fatal path (required resource missing,
or an async-id mismatch on pop). -/
def runForest : ScopeForest → Environment → Option (Environment × Nat)
  | ScopeForest.nil, env => some (env, 0)
  | ScopeForest.scope ctx mf ec ff children rest, env =>
      match scopeConstruct env ctx true true with
      | none => none
      | some (s, env1) =>
          match (if s.failed_ then some (env1, 0) else runForest children env1) with
          | none => none
          | some (env2, n1) =>
              let s1 := if mf then markAsFailed s else s
              match (if ec then scopeClose s1 ff env2 else some (s1, env2)) with
              | none => none
              | some (s2, env3) =>
                  match scopeDestroy s2 ff env3 with
                  | none => none
                  | some env4 =>
                      match runForest rest env4 with
                      | none => none
                      | some (env5, n2) =>
                          some (env5, (if s.pushed_ids_ then 1 else 0) + n1 + n2)

/-- Boolean scan asserting that, in a loop trace, every `beforeExit`
notification is preceded by an observation of the loop having gone idle.
The accumulator records whether an `idle` event has been seen so far. -/
def bePreceded : Bool → List LoopEvent → Bool
  | _, [] => true
  | _, LoopEvent.idle :: r => bePreceded true r
  | seen, LoopEvent.beforeExit :: r => seen && bePreceded seen r
  | seen, LoopEvent.stillAlive :: r => bePreceded seen r
  | seen, LoopEvent.exitEmit :: r => bePreceded seen r

/-- Number of `exitEmit` events in a trace. -/
def exitEmitCount (tr : List LoopEvent) : Nat :=
  tr.countP (fun e => match e with | LoopEvent.exitEmit => true | _ => false)

/-- Number of before-exit passes in a loop trace (one per `idle` event). -/
def beforeExitPasses (tr : List LoopEvent) : Nat :=
  tr.countP (fun e => match e with | LoopEvent.idle => true | _ => false)

/-- Number of iterations of the do-while loop recorded in a trace (each
iteration contributes exactly one `stillAlive` or one `idle` event). -/
def loopIterationCount (tr : List LoopEvent) : Nat :=
  tr.countP
    (fun e => match e with
     | LoopEvent.stillAlive => true
     | LoopEvent.idle => true
     | _ => false)

/-- Recognizes the completion-callback event of a work trace. -/
def isAfterEvent (e : WorkEvent) : Bool :=
  match e with
  | WorkEvent.afterWork _ => true
  | _ => false

/-- Boolean scan asserting that every `target` event of a work trace is
preceded by some `trigger` event. -/
def precededBy (trigger target : WorkEvent → Bool) : Bool → List WorkEvent → Bool
  | _, [] => true
  | seen, e :: r => (!target e || seen) && precededBy trigger target (seen || trigger e) r

/-- Number of completion callbacks in a work trace. -/
def afterCount (tr : List WorkEvent) : Nat :=
  tr.countP isAfterEvent

/-- A world in which the inspector is off, both bootstrappers succeed, the
event loop drains completely on every `uv_run`, and no before-exit hook
schedules work — parametrized by the managed `exit` handler. -/
def quietWorld (h : Int → Process → Process) : World :=
  { inspector_enabled := false, inspector_started := false,
    loaders_result := some (JSVal.obj 0), node_result := some (JSVal.obj 1),
    residual := fun _ => 0, beforeExitWork := fun _ => 0,
    beforeExitEmitWork := fun _ => 0, exit_handler := h, fuel := 1 }

/-- Claim C6: whenever `ExecuteBootstrapper` returns an empty result
(signalling failure), the environment's async-id stack is cleared before
execution continues; on a non-empty result the environment is left
untouched. -/
theorem claim_C6_bootstrapper_stack_reset :
    ∀ (env : Environment) (v : JSVal),
      ExecuteBootstrapper none env = (none, clear_async_id_stack env)
      ∧ (ExecuteBootstrapper none env).2.async_id_stack = []
      ∧ ExecuteBootstrapper (some v) env = (some v, env) := by
  intro env v
  exact ⟨rfl, rfl, rfl⟩

/-- Claim C10: `EmitExit` consults the managed `exit` handler only at the
pre-emission exit code (read from the process object before any listener
runs) and only on a process state whose `_exiting` property has already
been set to true: two handlers that agree on such inputs make `EmitExit`
behave identically. -/
theorem claim_C10_emit_exit_prestate :
    ∀ (p : Process) (h₁ h₂ : Int → Process → Process),
      (∀ (c : Int) (q : Process),
          c = p.exit_code → q.exiting = true → h₁ c q = h₂ c q) →
      EmitExit h₁ p = EmitExit h₂ p := by
  intro p h₁ h₂ hagree
  simp only [EmitExit]
  rw [hagree _ _ rfl rfl]

/-- Claim C10 witness: the extensionality property evaluated at a concrete
process state and two concretely different handlers that agree on
pre-emission inputs. -/
theorem claim_C10_emit_exit_prestate_witness :
    EmitExit (fun c q => { q with exit_code := c + 1 }) ⟨false, (0 : Int)⟩ =
      EmitExit (fun c q => if q.exiting then { q with exit_code := c + 1 } else q)
        ⟨false, (0 : Int)⟩ :=
  claim_C10_emit_exit_prestate ⟨false, (0 : Int)⟩ _ _
    (fun _ q _ hq => by simp [hq])

/-- Claim C5: for every thread-pool work unit, `ScheduleWork` first
increments the outstanding-work counter; the completion callback
`AfterThreadPoolWork` runs exactly once, only after the counter has been
decremented, and — when the body runs — only after `DoThreadPoolWork` has
returned; the status is 0 on success and a negative (hence non-zero) code
on cancellation. On cancellation the body never runs. -/
theorem claim_C5_thread_pool_after :
    ∀ (o : WorkOutcome),
      afterCount (ScheduleWork o) = 1
      ∧ (ScheduleWork o).head? = some WorkEvent.counterInc
      ∧ precededBy (fun e => e == WorkEvent.counterDec) isAfterEvent false
          (ScheduleWork o) = true
      ∧ (o = WorkOutcome.success →
          WorkEvent.afterWork 0 ∈ ScheduleWork o
          ∧ precededBy (fun e => e == WorkEvent.doWork) isAfterEvent false
              (ScheduleWork o) = true)
      ∧ (o = WorkOutcome.cancelled →
          WorkEvent.afterWork uvEcanceled ∈ ScheduleWork o
          ∧ uvEcanceled < 0
          ∧ WorkEvent.doWork ∉ ScheduleWork o)
      ∧ (∀ s : Int, WorkEvent.afterWork s ∈ ScheduleWork o →
          (o = WorkOutcome.success → s = 0)
          ∧ (o = WorkOutcome.cancelled → s ≠ 0)) := by
  intro o
  cases o with
  | success =>
      refine ⟨by decide, by decide, by decide, ?_, ?_, ?_⟩
      · intro _
        exact ⟨by simp [ScheduleWork], by decide⟩
      · intro h
        cases h
      · intro s hs
        simp only [ScheduleWork, List.mem_cons, List.not_mem_nil, or_false] at hs
        refine ⟨fun _ => ?_, fun h => by cases h⟩
        rcases hs with h | h | h | h <;> simp_all
  | cancelled =>
      refine ⟨by decide, by decide, by decide, ?_, ?_, ?_⟩
      · intro h
        cases h
      · intro _
        refine ⟨by simp [ScheduleWork], by decide, by simp [ScheduleWork]⟩
      · intro s hs
        constructor
        · intro h
          cases h
        · intro _
          simp only [ScheduleWork, List.mem_cons, List.not_mem_nil, or_false] at hs
          rcases hs with h | h | h <;> simp_all [uvEcanceled]

/-- Claim C5 witness: the completion contract evaluated on the concrete
success and cancellation outcomes. -/
theorem claim_C5_thread_pool_after_witness :
    afterCount (ScheduleWork WorkOutcome.success) = 1
    ∧ WorkEvent.afterWork 0 ∈ ScheduleWork WorkOutcome.success
    ∧ WorkEvent.afterWork uvEcanceled ∈ ScheduleWork WorkOutcome.cancelled
    ∧ uvEcanceled < 0 :=
  ⟨(claim_C5_thread_pool_after WorkOutcome.success).1,
   ((claim_C5_thread_pool_after WorkOutcome.success).2.2.2.1 rfl).1,
   ((claim_C5_thread_pool_after WorkOutcome.cancelled).2.2.2.2.1 rfl).1,
   ((claim_C5_thread_pool_after WorkOutcome.cancelled).2.2.2.2.1 rfl).2.1⟩

/-- Claim C3: the run loop returns the exit code as mutated by the
managed `exit` handler, not the originally computed one: for every
handler `h` and initial process state, the inner `Start` (in a quiet
world) returns the exit-code field of the state `h` produced; in
particular, starting from stored exit code 0, a handler that sets it to 7
makes the run loop return 7. -/
theorem claim_C3_exit_code_mutation :
    (∀ (h : Int → Process → Process) (p : Process),
        StartInner (quietWorld h) p =
          StartResult.done (h p.exit_code { p with exiting := true }).exit_code
            { async_id_stack := [], makecallback_cntr := 0,
              can_call_into_js := false, cleanup_ran := true }
            (h p.exit_code { p with exiting := true })
            [LoopEvent.idle, LoopEvent.beforeExit, LoopEvent.exitEmit])
    ∧ StartInner (quietWorld (fun _ q => { q with exit_code := 7 }))
        ⟨false, (0 : Int)⟩ =
        StartResult.done 7
          { async_id_stack := [], makecallback_cntr := 0,
            can_call_into_js := false, cleanup_ran := true }
          ⟨true, (7 : Int)⟩
          [LoopEvent.idle, LoopEvent.beforeExit, LoopEvent.exitEmit] := by
  constructor
  · intro h p
    rfl
  · rfl

/-- Claim C7: if engine-instance (isolate) allocation fails, the outer
`Start` returns the internal-error sentinel 12 without invoking any
cleanup hook and without entering the run loop; the same sentinel, with
no cleanup hook run and the loop not entered, is returned when the
inspector was requested but failed to start. -/
theorem claim_C7_internal_error_sentinel :
    ∀ (w : World) (p : Process),
      StartOuter false w p = OuterResult.code 12 false false
      ∧ (w.inspector_enabled = true → w.inspector_started = false →
          StartOuter true w p = OuterResult.code 12 false false) := by
  intro w p
  constructor
  · rfl
  · intro he hs
    simp [StartOuter, StartInner, he, hs]

/-- Claim C7 witness: the sentinel behaviour evaluated at a concrete
world in which the inspector was requested but did not start. -/
theorem claim_C7_internal_error_sentinel_witness :
    StartOuter false (quietWorld (fun _ q => q)) ⟨false, (0 : Int)⟩ =
      OuterResult.code 12 false false
    ∧ StartOuter true
        { quietWorld (fun _ q => q) with
            inspector_enabled := true, inspector_started := false }
        ⟨false, (0 : Int)⟩ = OuterResult.code 12 false false :=
  ⟨(claim_C7_internal_error_sentinel (quietWorld (fun _ q => q)) ⟨false, 0⟩).1,
   (claim_C7_internal_error_sentinel
      { quietWorld (fun _ q => q) with
          inspector_enabled := true, inspector_started := false }
      ⟨false, 0⟩).2 rfl rfl⟩

/-- Claim C2: the inner `Start` runs the bootstrap sequence inside
exactly one callback scope — the async-id pair `(1, 0)` is pushed before
`LoadEnvironment` runs (the ghost observation records the stack
`[(1, 0)]` during the bootstrap), and popped afterwards, with the
callback-scope depth restored; and when either bootstrapper fails, the
failure propagates to the top level (the fatal-exception outcome) instead
of entering the event-loop iteration. -/
theorem claim_C2_bootstrap_scope :
    ∀ (lR nR : Option JSVal) (w : World) (p : Process),
      (∃ (env' : Environment) (ok : Bool),
          bootstrapPhase lR nR initialEnvironment = some (env', ok, [(1, 0)])
          ∧ env'.async_id_stack = []
          ∧ env'.makecallback_cntr = 0
          ∧ ok = (lR.isSome && nR.isSome))
      ∧ (w.inspector_enabled = false →
          w.loaders_result = none ∨ w.node_result = none →
          StartInner w p = StartResult.bootstrapFatal) := by
  intro lR nR w p
  constructor
  · cases lR with
    | none => exact ⟨initialEnvironment, false, rfl, rfl, rfl, rfl⟩
    | some v =>
        cases nR with
        | none => exact ⟨initialEnvironment, false, rfl, rfl, rfl, rfl⟩
        | some v2 => exact ⟨initialEnvironment, true, rfl, rfl, rfl, rfl⟩
  · intro he hb
    have hins : (w.inspector_enabled && !w.inspector_started) = false := by
      simp [he]
    rcases hb with h | h
    · simp [StartInner, hins, bootstrapPhase, LoadEnvironment, ExecuteBootstrapper, h,
        push_async_ids, pop_async_id, clear_async_id_stack, initialEnvironment]
    · cases hl : w.loaders_result <;>
        simp [StartInner, hins, bootstrapPhase, LoadEnvironment, ExecuteBootstrapper, h,
          hl, push_async_ids, pop_async_id, clear_async_id_stack, initialEnvironment]

/-- Claim C2 witness: the bootstrap-scope property evaluated at concrete
bootstrap outcomes, including a failing world that does not enter the
loop. -/
theorem claim_C2_bootstrap_scope_witness :
    (∃ (env' : Environment) (ok : Bool),
        bootstrapPhase (some (JSVal.obj 0)) (some (JSVal.obj 1))
          initialEnvironment = some (env', ok, [(1, 0)])
        ∧ env'.async_id_stack = []
        ∧ env'.makecallback_cntr = 0
        ∧ ok = ((some (JSVal.obj 0)).isSome && (some (JSVal.obj 1)).isSome))
    ∧ StartInner { quietWorld (fun _ q => q) with loaders_result := none }
        ⟨false, (0 : Int)⟩ = StartResult.bootstrapFatal :=
  ⟨(claim_C2_bootstrap_scope (some (JSVal.obj 0)) (some (JSVal.obj 1))
      (quietWorld (fun _ q => q)) ⟨false, 0⟩).1,
   (claim_C2_bootstrap_scope none none
      { quietWorld (fun _ q => q) with loaders_result := none }
      ⟨false, 0⟩).2 rfl (Or.inl rfl)⟩

/-- Claim C4: when before-exit hooks never schedule new referenced work
(and the event loop retains none of its own), the main do-while loop
terminates after one iteration with a single before-exit pass, whatever
the fuel budget; when the hooks schedule exactly one additional unit of
referenced work exactly once (at the first pass), the loop terminates
after exactly one extra iteration. -/
theorem claim_C4_before_exit_termination :
    (∀ (w : World),
        (∀ i, w.residual i = 0) →
        (∀ q, w.beforeExitWork q = 0) →
        (∀ q, w.beforeExitEmitWork q = 0) →
        ∀ (n iter pass : Nat),
          loopRun w (n + 1) iter pass =
            some [LoopEvent.idle, LoopEvent.beforeExit]
          ∧ loopIterationCount [LoopEvent.idle, LoopEvent.beforeExit] = 1
          ∧ beforeExitPasses [LoopEvent.idle, LoopEvent.beforeExit] = 1)
    ∧ (∀ (w : World),
        (∀ i, w.residual i = 0) →
        w.beforeExitWork 0 = 1 →
        (∀ q, w.beforeExitWork (q + 1) = 0) →
        (∀ q, w.beforeExitEmitWork q = 0) →
        ∀ (n : Nat),
          loopRun w (n + 2) 0 0 =
            some [LoopEvent.idle, LoopEvent.idle, LoopEvent.beforeExit]
          ∧ loopIterationCount
              [LoopEvent.idle, LoopEvent.idle, LoopEvent.beforeExit] = 2) := by
  constructor
  · intro w hr hb he n iter pass
    refine ⟨?_, by decide, by decide⟩
    simp [loopRun, RunBeforeExit, hr, hb, he]
  · intro w hr hb0 hb he n
    refine ⟨?_, by decide⟩
    have hb1 : w.beforeExitWork 1 = 0 := hb 0
    simp [loopRun, RunBeforeExit, hr, hb0, hb1, he]

/-- Claim C4 witness: the two termination scenarios evaluated at concrete
oracles — hooks that never schedule work, and hooks that schedule one
unit exactly once. -/
theorem claim_C4_before_exit_termination_witness :
    loopRun (quietWorld (fun _ q => q)) 5 0 0 =
      some [LoopEvent.idle, LoopEvent.beforeExit]
    ∧ loopRun
        { quietWorld (fun _ q => q) with
            beforeExitWork := fun q => if q = 0 then 1 else 0 } 5 0 0 =
      some [LoopEvent.idle, LoopEvent.idle, LoopEvent.beforeExit] :=
  ⟨(claim_C4_before_exit_termination.1 (quietWorld (fun _ q => q))
      (fun _ => rfl) (fun _ => rfl) (fun _ => rfl) 4 0 0).1,
   (claim_C4_before_exit_termination.2
      { quietWorld (fun _ q => q) with
          beforeExitWork := fun q => if q = 0 then 1 else 0 }
      (fun _ => rfl) rfl (fun _ => rfl) (fun _ => rfl) 3).1⟩

/-- Once an idle observation has been seen, any continuation of the trace
satisfies the before-exit precedence scan. -/
theorem bePreceded_of_true : ∀ (tr : List LoopEvent), bePreceded true tr = true := by
  intro tr
  induction tr with
  | nil => rfl
  | cons e r ih => cases e <;> simpa [bePreceded] using ih

/-- Appending the terminal exit emission preserves the before-exit
precedence scan. -/
theorem bePreceded_concat_exit :
    ∀ (tr : List LoopEvent) (s : Bool),
      bePreceded s tr = true →
      bePreceded s (tr ++ [LoopEvent.exitEmit]) = true := by
  intro tr
  induction tr with
  | nil => intro s _; cases s <;> rfl
  | cons e r ih =>
      intro s h
      cases e with
      | stillAlive =>
          simp only [bePreceded, List.cons_append] at h ⊢
          exact ih s h
      | idle =>
          simp only [bePreceded, List.cons_append] at h ⊢
          exact ih true h
      | beforeExit =>
          cases s with
          | false => simp [bePreceded] at h
          | true =>
              simp only [bePreceded, List.cons_append, Bool.true_and] at h ⊢
              exact ih true h
      | exitEmit =>
          simp only [bePreceded, List.cons_append] at h ⊢
          exact ih s h

/-- Every trace produced by the main loop has each `beforeExit`
notification preceded by an idle observation, and contains no exit
emission. -/
theorem loopRun_trace_props (w : World) :
    ∀ (fuel iter pass : Nat) (tr : List LoopEvent),
      loopRun w fuel iter pass = some tr →
      bePreceded false tr = true ∧ exitEmitCount tr = 0 := by
  intro fuel
  induction fuel with
  | zero => intro iter pass tr h; cases h
  | succ fuel ih =>
      intro iter pass tr h
      simp only [loopRun] at h
      by_cases hw : 0 < w.residual iter
      · rw [if_pos hw] at h
        rcases Option.map_eq_some'.mp h with ⟨a, ha, rfl⟩
        have hrec := ih (iter + 1) pass a ha
        exact ⟨by simpa [bePreceded] using hrec.1,
               by simpa [exitEmitCount, List.countP_cons] using hrec.2⟩
      · rw [if_neg hw] at h
        by_cases hm : 0 < (RunBeforeExit w pass).1
        · rw [if_pos hm] at h
          rcases Option.map_eq_some'.mp h with ⟨a, ha, rfl⟩
          have hrec := ih (iter + 1) (pass + 1) a ha
          cases hb : (RunBeforeExit w pass).2 with
          | true =>
              constructor
              · simpa [hb, bePreceded] using bePreceded_of_true a
              · simpa [hb, exitEmitCount, List.countP_cons] using hrec.2
          | false =>
              constructor
              · simpa [hb, bePreceded] using bePreceded_of_true a
              · simpa [hb, exitEmitCount, List.countP_cons] using hrec.2
        · rw [if_neg hm] at h
          cases hb : (RunBeforeExit w pass).2 with
          | true =>
              rw [hb] at h
              simp only [if_true] at h
              cases h
              exact ⟨by decide, by decide⟩
          | false =>
              rw [hb] at h
              simp only [Bool.false_eq_true, if_false] at h
              cases h
              exact ⟨by decide, by decide⟩

/-- Claim C8: in every terminating run-loop execution, each `beforeExit`
notification in the trace is preceded by an observation of the loop
having gone idle; the exit notification fires exactly once and is the
last event; and afterwards the environment forbids managed callbacks
(`can_call_into_js` is unset). -/
theorem claim_C8_lifecycle_order :
    ∀ (w : World) (p : Process) (code : Int) (env' : Environment)
      (p' : Process) (tr : List LoopEvent),
      StartInner w p = StartResult.done code env' p' tr →
      bePreceded false tr = true
      ∧ exitEmitCount tr = 1
      ∧ (∃ pre, tr = pre ++ [LoopEvent.exitEmit] ∧ exitEmitCount pre = 0)
      ∧ env'.can_call_into_js = false := by
  intro w p code env' p' tr h
  simp only [StartInner] at h
  by_cases hins : (w.inspector_enabled && !w.inspector_started) = true
  · rw [if_pos hins] at h
    cases h
  · rw [if_neg hins] at h
    cases hboot : bootstrapPhase w.loaders_result w.node_result initialEnvironment with
    | none =>
        rw [hboot] at h
        cases h
    | some res =>
        obtain ⟨env1, ok, ghost⟩ := res
        rw [hboot] at h
        cases ok with
        | false =>
            simp only [Bool.not_false, if_true] at h
            cases h
        | true =>
            simp only [Bool.not_true, Bool.false_eq_true, if_false] at h
            cases hloop : loopRun w w.fuel 0 0 with
            | none =>
                rw [hloop] at h
                cases h
            | some ltr =>
                rw [hloop] at h
                cases h
                have hprops := loopRun_trace_props w w.fuel 0 0 ltr hloop
                refine ⟨bePreceded_concat_exit ltr false hprops.1, ?_,
                  ⟨ltr, rfl, hprops.2⟩, rfl⟩
                have h2 := hprops.2
                simp only [exitEmitCount] at h2 ⊢
                rw [List.countP_append, h2]
                decide

/-- Claim C8 witness: the lifecycle ordering evaluated on a concrete
quiet-world run. -/
theorem claim_C8_lifecycle_order_witness :
    bePreceded false [LoopEvent.idle, LoopEvent.beforeExit, LoopEvent.exitEmit] = true
    ∧ exitEmitCount [LoopEvent.idle, LoopEvent.beforeExit, LoopEvent.exitEmit] = 1
    ∧ (∃ pre, [LoopEvent.idle, LoopEvent.beforeExit, LoopEvent.exitEmit] =
          pre ++ [LoopEvent.exitEmit] ∧ exitEmitCount pre = 0)
    ∧ ({ async_id_stack := [], makecallback_cntr := 0,
         can_call_into_js := false, cleanup_ran := true } :
          Environment).can_call_into_js = false :=
  claim_C8_lifecycle_order (quietWorld (fun _ q => q)) ⟨false, (0 : Int)⟩ 0
    { async_id_stack := [], makecallback_cntr := 0,
      can_call_into_js := false, cleanup_ran := true }
    ⟨true, (0 : Int)⟩
    [LoopEvent.idle, LoopEvent.beforeExit, LoopEvent.exitEmit] rfl

/-- Claim C9: whenever the underlying `InternalMakeCallback` produces an
empty (failed) result while the environment's `MakeCallback` depth is 0,
each legacy three-argument public `MakeCallback` overload (function,
symbol with the property found to be a function, and method name) — all
of which use async context `{0, 0}` — returns the Undefined value instead
of an empty handle, so the failure is not observable in the return
value. -/
theorem claim_C9_legacy_undefined :
    ∀ (env : Environment) (dce : Bool) (cr dr : Option JSVal) (ff : Bool)
      (env1 : Environment) (f : JSVal),
      InternalMakeCallback env (0, 0) dce cr dr ff = some (none, env1) →
      env1.makecallback_cntr = 0 →
      MakeCallback_legacy_function env dce cr dr ff =
        some (some JSVal.undefined, env1)
      ∧ MakeCallback_legacy_symbol (some f) true env dce cr dr ff =
          some (some JSVal.undefined, env1)
      ∧ MakeCallback_legacy_method (some f) true env dce cr dr ff =
          some (some JSVal.undefined, env1)
      ∧ some JSVal.undefined ≠ (none : Option JSVal) := by
  intro env dce cr dr ff env1 f hint hdepth
  have hfn : MakeCallback_function env (0, 0) dce cr dr ff =
      some (some JSVal.undefined, env1) := by
    unfold MakeCallback_function
    rw [hint]
    simp [hdepth]
  refine ⟨hfn, ?_, ?_, by decide⟩
  · simpa [MakeCallback_legacy_symbol, MakeCallback_symbol] using hfn
  · simpa [MakeCallback_legacy_method, MakeCallback_method, MakeCallback_symbol] using hfn

/-- Claim C9 witness: the Undefined fallback evaluated at a concrete
failing callback invocation at depth 0. -/
theorem claim_C9_legacy_undefined_witness :
    MakeCallback_legacy_function initialEnvironment true none
        (some (JSVal.obj 0)) false =
      some (some JSVal.undefined, initialEnvironment)
    ∧ MakeCallback_legacy_symbol (some (JSVal.obj 1)) true initialEnvironment
        true none (some (JSVal.obj 0)) false =
      some (some JSVal.undefined, initialEnvironment) :=
  ⟨(claim_C9_legacy_undefined initialEnvironment true none (some (JSVal.obj 0))
      false initialEnvironment (JSVal.obj 1) rfl rfl).1,
   (claim_C9_legacy_undefined initialEnvironment true none (some (JSVal.obj 0))
      false initialEnvironment (JSVal.obj 1) rfl rfl).2.1⟩

/-- Claim C1: for every well-nested sequence of callback-scope
constructions, closes and destructions on one environment (with managed
calls allowed), the run never hits the fatal mismatch path, the async-id
stack — and the whole environment — returns to its pre-scope content, and
exactly one pop is performed per scope, regardless of whether
`MarkAsFailed` was called on any scope, of whether the scope was closed
explicitly or only by its destructor, and of whether any microtask flush
failed. The LIFO discipline is implicit in the success of every pop's
top-of-stack id check. -/
theorem claim_C1_scope_stack_balance :
    ∀ (f : ScopeForest) (env : Environment),
      env.can_call_into_js = true →
      runForest f env = some (env, scopeCount f) := by
  intro f
  induction f with
  | nil =>
      intro env h
      rfl
  | scope ctx mf ec ff children rest ihc ihr =>
      intro env h
      obtain ⟨stack, cnt, cj, cl⟩ := env
      have h2 : cj = true := h
      subst h2
      cases mf <;> cases ec <;> cases ff <;>
        simp [runForest, scopeConstruct, scopeClose, scopeDestroy, markAsFailed,
          push_async_ids, pop_async_id, scopeCount, ihc, ihr,
          Nat.add_sub_cancel, Nat.add_comm, Nat.add_left_comm]

/-- Claim C1 witness: a concrete nested forest — a failed inner scope
inside a closed outer scope, followed by a sibling with a failing flush —
restores the initial environment exactly, with one pop per scope. -/
theorem claim_C1_scope_stack_balance_witness :
    runForest
      (ScopeForest.scope (2, 1) false true false
        (ScopeForest.scope (3, 2) true false false ScopeForest.nil ScopeForest.nil)
        (ScopeForest.scope (4, 1) false false true ScopeForest.nil ScopeForest.nil))
      initialEnvironment =
      some (initialEnvironment, 3) :=
  claim_C1_scope_stack_balance
    (ScopeForest.scope (2, 1) false true false
      (ScopeForest.scope (3, 2) true false false ScopeForest.nil ScopeForest.nil)
      (ScopeForest.scope (4, 1) false false true ScopeForest.nil ScopeForest.nil))
    initialEnvironment rfl

end Node
